import Mathlib

/-!
Verification of the stream-aggregation engine of droid-mcp-rs.

The definitions below are a shallow embedding of `src/droid.rs` and
`src/server.rs`.  Pure fragments of the Rust code become Lean functions;
the stateful stdout-draining loop of `run_internal` becomes a fold of a
step function over the list of successfully parsed stdout events; the
verdict resolution after process exit becomes an explicit `finalize`
function; the timeout branch of `run` becomes `timeoutResult`.

Rust `String::len()` is the UTF-8 byte length, embedded as
`String.utf8ByteSize`.
-/

namespace DroidMcp

/-- Size constants from `src/droid.rs` lines 12-18. -/
def DEFAULT_TIMEOUT_SECS : Nat := 600

def MAX_TIMEOUT_SECS : Nat := 3600

def MAX_AGENT_MESSAGES_SIZE : Nat := 10 * 1024 * 1024

def MAX_ALL_MESSAGES_SIZE : Nat := 50 * 1024 * 1024

def MAX_STDERR_SIZE : Nat := 100000

/-- One successfully parsed stdout line (`src/droid.rs` line 687:
`serde_json::from_str::<Value>(trimmed)` succeeding with a JSON object).
The optional string fields are the results of the duck-typed probes
`line_data.get("...").and_then(|v| v.as_str())`; `size` is the byte
length of the event's map serialization,
`serde_json::to_string(&map).map(|s| s.len()).unwrap_or(0)`
(`src/droid.rs` line 763).  Blank lines, lines that fail to parse and
non-object lines contribute nothing and are not modelled. -/
structure Event where
  session_id : Option String
  type : Option String
  message : Option String
  finalText : Option String
  role : Option String
  text : Option String
  size : Nat
deriving DecidableEq, Repr

/-- The mutable result state of `run_internal` (`DroidResult` being filled
in, `src/droid.rs` lines 641-651) together with the loop-local counter
`all_messages_size` (line 675). -/
structure DState where
  success : Bool
  session_id : String
  agent_messages : String
  agent_messages_truncated : Bool
  all_messages : List Event
  all_messages_truncated : Bool
  all_messages_size : Nat
  error : Option String
  warnings : Option String
  model_info : Option String
deriving DecidableEq, Repr

/-- Initial state built at `src/droid.rs` lines 641-651: success starts
true, everything else empty; warnings/model info come from the caller. -/
def initState (droid_warning model_display : Option String) : DState :=
  { success := true
    session_id := ""
    agent_messages := ""
    agent_messages_truncated := false
    all_messages := []
    all_messages_truncated := false
    all_messages_size := 0
    error := none
    warnings := droid_warning
    model_info := model_display }

/-- Truncation marker pushed at `src/droid.rs` lines 717-719 / 742-744. -/
def TRUNCATION_MARKER : String := "\n[... Agent messages truncated due to size limit ...]"

/-- Append with a separating newline when both sides are non-empty
(`src/droid.rs` lines 723-726 and 748-752). -/
def visAppend (buf t : String) : String :=
  if !buf.isEmpty && !t.isEmpty then buf ++ "\n" ++ t else buf ++ t

/-- One append of agent-visible text under the 10 MB size policy; a
direct transcription of `src/droid.rs` lines 714-727 (the identical block
reappears at lines 739-753 for assistant messages). -/
def visStep : String × Bool → String → String × Bool
  | (buf, truncated), t =>
    if buf.utf8ByteSize + t.utf8ByteSize > MAX_AGENT_MESSAGES_SIZE then
      if !truncated then (buf ++ TRUNCATION_MARKER, true) else (buf, truncated)
    else
      if !truncated then (visAppend buf t, truncated) else (buf, truncated)

/-- The agent-visible text buffer produced by a sequence of text
fragments, starting from the empty untruncated buffer. -/
def visRun (ts : List String) : String × Bool := ts.foldl visStep ("", false)

/-- The text an assistant `message` event contributes, if any. -/
def Event.msgText (e : Event) : Option String :=
  match e.role with
  | some role => if role = "assistant" then e.text else none
  | none => none

/-- The agent-visible text fragment an event contributes, if any:
`finalText` of a `completion` event (`src/droid.rs` lines 710-713), or
`text` of an assistant `message` event (lines 732-738). -/
def Event.visText (e : Event) : Option String :=
  match e.type with
  | some line_type =>
    if line_type = "completion" then e.finalText
    else if line_type = "message" then e.msgText
    else none
  | none => none

/-- The ordered agent-visible fragments of a stream. -/
def visTexts (evs : List Event) : List String := evs.filterMap Event.visText

/-- Session-id first-write-wins (`src/droid.rs` lines 695-699). -/
def sessionStep (st : DState) (e : Event) : DState :=
  match e.session_id with
  | some sid =>
    if !sid.isEmpty && st.session_id.isEmpty then { st with session_id := sid } else st
  | none => st

/-- The `error`-typed event handling (`src/droid.rs` lines 702-707):
mark failure and, when a `message` field is present, set the error
message from it with the agent-error tag. -/
def errorBranch (st : DState) (e : Event) : DState :=
  let st := { st with success := false }
  match e.message with
  | some msg => { st with error := some ("droid error: " ++ msg) }
  | none => st

/-- One append to the agent-visible buffer under the size policy
(`visStep`), written back into the state. -/
def pushVisText (st : DState) (t : String) : DState :=
  let p := visStep (st.agent_messages, st.agent_messages_truncated) t
  { st with agent_messages := p.1, agent_messages_truncated := p.2 }

/-- The `completion`-typed event handling (`src/droid.rs` lines
710-729): append `finalText` when present. -/
def completionBranch (st : DState) (e : Event) : DState :=
  match e.finalText with
  | some final_text => pushVisText st final_text
  | none => st

/-- The assistant-`message` text handling (`src/droid.rs` lines
736-754): append `text` when present. -/
def assistantBranch (st : DState) (e : Event) : DState :=
  match e.text with
  | some text => pushVisText st text
  | none => st

/-- The `message`-typed event handling (`src/droid.rs` lines 732-757):
only assistant messages contribute. -/
def messageBranch (st : DState) (e : Event) : DState :=
  match e.role with
  | some role => if role = "assistant" then assistantBranch st e else st
  | none => st

/-- The `type` dispatch on one event (`src/droid.rs` lines 701-758):
mark failure and record the message on `error`; append `finalText` of a
`completion` and `text` of an assistant `message` to the agent-visible
buffer under the size policy. -/
def typeStep (st : DState) (e : Event) : DState :=
  match e.type with
  | some line_type =>
    let st := if line_type = "error" then errorBranch st e else st
    let st := if line_type = "completion" then completionBranch st e else st
    let st := if line_type = "message" then messageBranch st e else st
    st
  | none => st

/-- The raw archive push under the 50 MB running-total policy
(`src/droid.rs` lines 760-770). -/
def archiveStep (st : DState) (e : Event) : DState :=
  if st.all_messages_size + e.size ≤ MAX_ALL_MESSAGES_SIZE then
    { st with
        all_messages_size := st.all_messages_size + e.size
        all_messages := st.all_messages ++ [e] }
  else if !st.all_messages_truncated then
    { st with all_messages_truncated := true }
  else st

/-- Processing of one parsed stdout event, a transcription of the loop
body of `run_internal` (`src/droid.rs` lines 695-770): session-id
first-write, `type` dispatch, then the raw archive push. -/
def procEvent (st : DState) (e : Event) : DState :=
  archiveStep (typeStep (sessionStep st e) e) e

/-- The stdout draining loop of `run_internal` (`src/droid.rs` lines
677-777) over an already-parsed event stream, from a given state. -/
def drainFrom (st : DState) (evs : List Event) : DState := evs.foldl procEvent st

/-- Debug representation of `status.code()` (an `Option<i32>`), as
produced by the `{:?}` format at `src/droid.rs` lines 796-802. -/
def codeRepr : Option Int → String
  | some c => "Some(" ++ toString c ++ ")"
  | none => "None"

/-- The verdict resolution after process exit, a transcription of
`src/droid.rs` lines 792-816: exit-status rule, then the no-session-id
rule, then the no-agent-messages rule. -/
def finalize (st : DState) (exit_ok : Bool) (code : Option Int) (stderr_output : String) : DState :=
  let st :=
    if !exit_ok then
      let st := { st with success := false }
      if st.error = none then
        let error_msg :=
          if !stderr_output.isEmpty then
            "droid exited with code " ++ codeRepr code ++ ". stderr: " ++ stderr_output
          else
            "droid exited with code " ++ codeRepr code
        { st with error := some error_msg }
      else st
    else st
  let st :=
    if st.session_id.isEmpty then
      { st with success := false, error := some "No session_id received from droid" }
    else st
  let st :=
    if st.agent_messages.isEmpty && st.success then
      { st with success := false, error := some "No agent messages received from droid" }
    else st
  st

/-- The observable behaviour of `run_internal` after a successful spawn
(`src/droid.rs` lines 677-818): drain the parsed stdout events from the
initial state, then apply the verdict resolution with the process exit
status and the drained stderr buffer. -/
def run_internal (evs : List Event) (exit_ok : Bool) (code : Option Int)
    (stderr_output : String) (droid_warning model_display : Option String) : DState :=
  finalize (drainFrom (initState droid_warning model_display) evs) exit_ok code stderr_output

/-- One stderr line handled by the stderr drain task (`src/droid.rs`
lines 660-666): the line (newline included) is appended only while the
100 KB budget is not exceeded, with no marker and no cut-off flag. -/
def stderrStep (out l : String) : String :=
  if out.utf8ByteSize + l.utf8ByteSize ≤ MAX_STDERR_SIZE then out ++ l else out

/-- The stderr drain task (`src/droid.rs` lines 653-671) over the
sequence of lines read. -/
def stderrDrain (lines : List String) : String := lines.foldl stderrStep ""

/-- The timeout branch of `run` (`src/droid.rs` lines 506-527): the
deadline elapsed, so a fixed failure result is assembled from the
timeout length and the warnings gathered so far.  `model_warning` and
`model_display` stand for the pair returned by `get_model_info`. -/
def timeoutResult (timeout_secs : Nat)
    (droid_warning model_warning model_display : Option String) : DState :=
  let timeout_warning := "Droid execution timed out after " ++ toString timeout_secs ++ " seconds"
  let combined_warning :=
    match droid_warning, model_warning with
    | some dw, some mw => some (dw ++ "\n" ++ mw ++ "\n" ++ timeout_warning)
    | some dw, none => some (dw ++ "\n" ++ timeout_warning)
    | none, some mw => some (mw ++ "\n" ++ timeout_warning)
    | none, none => some timeout_warning
  { success := false
    session_id := ""
    agent_messages := ""
    agent_messages_truncated := false
    all_messages := []
    all_messages_truncated := false
    all_messages_size := 0
    error := some ("Timeout after " ++ toString timeout_secs ++ " seconds")
    warnings := combined_warning
    model_info := model_display }

/-- The timeout arm of the race in `run` returns `Ok` with that result
(`src/droid.rs` line 526). -/
def runTimedOut (timeout_secs : Nat)
    (droid_warning model_warning model_display : Option String) : Except String DState :=
  Except.ok (timeoutResult timeout_secs droid_warning model_warning model_display)

/-- The execution options handed to `run` (`Options`, `src/droid.rs`
lines 22-38).  Paths are embedded as strings.  The Rust field
`skip_permissions_unsafe` is embedded under the shorter name
`skip_permissions`. -/
structure Options where
  prompt : Option String
  file : Option String
  working_dir : String
  session_id : Option String
  auto : Option String
  model : Option String
  enabled_tools : Option String
  disabled_tools : Option String
  additional_args : List String
  timeout_secs : Option Nat
  reasoning_effort : Option String
  use_spec : Bool
  spec_model : Option String
  skip_permissions : Bool
  output_format : Option String
deriving DecidableEq, Repr

/-- `ServerConfig` (`src/droid.rs` lines 72-80): the deserialized shape
of `droid-mcp.config.json`. -/
structure ServerConfig where
  additional_args : List String
  timeout_secs : Option Nat
  default_auto : Option String
  max_timeout_secs : Option Nat
  allow_high_autonomy : Bool
deriving DecidableEq, Repr

/-- Key presence in a syntactically well-formed config document: `none`
means the key is absent from the JSON object. -/
structure RawServerConfig where
  additional_args : Option (List String)
  timeout_secs : Option Nat
  default_auto : Option String
  max_timeout_secs : Option Nat
  allow_high_autonomy : Option Bool
deriving DecidableEq, Repr

/-- serde deserialization of a well-formed config object: fields marked
`#[serde(default)]` fall back to the type's default when the key is
absent — the empty list for `additional_args` and `false` for
`allow_high_autonomy` (`src/droid.rs` lines 72-80); `Option` fields
become `None` when absent. -/
def parseServerConfig (raw : RawServerConfig) : ServerConfig :=
  { additional_args := raw.additional_args.getD []
    timeout_secs := raw.timeout_secs
    default_auto := raw.default_auto
    max_timeout_secs := raw.max_timeout_secs
    allow_high_autonomy := raw.allow_high_autonomy.getD false }

/-- What the filesystem yields for the config path. -/
inductive ConfigFileState where
  | absent
  | unreadable
  | malformed
  | wellFormed (raw : RawServerConfig)
deriving DecidableEq, Repr

/-- `load_server_config` (`src/droid.rs` lines 95-142): start from the
built-in defaults (note `allow_high_autonomy: true` at line 101); keep
them if the file is absent, unreadable or fails to parse; otherwise take
the parsed config with `additional_args` trimmed and emptied entries
dropped (lines 115-122). -/
def load_server_config (file : ConfigFileState) : ServerConfig :=
  let cfg : ServerConfig :=
    { additional_args := []
      timeout_secs := none
      default_auto := none
      max_timeout_secs := none
      allow_high_autonomy := true }
  match file with
  | .wellFormed raw =>
    let parsed := parseServerConfig raw
    { parsed with
        additional_args :=
          (parsed.additional_args.map String.trim).filter (fun s => !s.isEmpty) }
  | _ => cfg

/-- `get_default_auto` (`src/droid.rs` lines 244-253): the configured
non-blank `default_auto` if any, else `"high"`. -/
def get_default_auto (cfg : ServerConfig) : Option String :=
  match cfg.default_auto with
  | some default_auto =>
    if !default_auto.trim.isEmpty then some default_auto else some "high"
  | none => some "high"

/-- The pre-launch steps of `run` that decide whether the engine may
proceed (`src/droid.rs` lines 464-466 and 491-497): apply the default
autonomy level when the caller gave none, then reject a resolved `high`
level when the configuration forbids it. -/
def run_prelaunch (cfg : ServerConfig) (opts : Options) : Except String Options :=
  let opts := if opts.auto.isNone then { opts with auto := get_default_auto cfg } else opts
  match opts.auto with
  | some auto =>
    if auto = "high" && !cfg.allow_high_autonomy then
      Except.error "High autonomy level is disabled in configuration. Set allow_high_autonomy=true to enable."
    else Except.ok opts
  | none => Except.ok opts

/-- The argument list built for the spawned command by `run_internal`
(`src/droid.rs` lines 554-617), in source order. -/
def buildArgs (opts : Options) (prompt : String) : List String :=
  ["exec"]
  ++ ["-o", opts.output_format.getD "stream-json"]
  ++ ["--cwd", opts.working_dir]
  ++ (if opts.skip_permissions then ["--skip-permissions-unsafe"]
      else match opts.auto with
      | some auto => ["--auto", auto]
      | none => [])
  ++ (match opts.reasoning_effort with
      | some reasoning => ["-r", reasoning]
      | none => [])
  ++ (if opts.use_spec then
        ["--use-spec"]
        ++ (match opts.spec_model with
            | some spec_model => ["--spec-model", spec_model]
            | none => [])
      else [])
  ++ (match opts.model with
      | some model => ["--model", model]
      | none => [])
  ++ (match opts.enabled_tools with
      | some enabled => ["--enabled-tools", enabled]
      | none => [])
  ++ (match opts.disabled_tools with
      | some disabled => ["--disabled-tools", disabled]
      | none => [])
  ++ (match opts.session_id with
      | some session_id => ["--session-id", session_id]
      | none => [])
  ++ opts.additional_args
  ++ (match opts.file with
      | some file => ["--file", file]
      | none => [prompt])

/-- The request as deserialized by the tool handler (`DroidArgs`,
`src/server.rs` lines 27-89).  The Rust field `skip_permissions_unsafe`
is embedded under the shorter name `skip_permissions`. -/
structure ToolArgs where
  prompt : Option String
  file : Option String
  auto : Option String
  session_id : Option String
  cwd : Option String
  model : Option String
  enabled_tools : Option String
  disabled_tools : Option String
  timeout_secs : Option Nat
  reasoning_effort : Option String
  use_spec : Option Bool
  spec_model : Option String
  skip_permissions : Option Bool
  output_format : Option String
deriving DecidableEq, Repr

/-- The handler either rejects the request with an invalid-parameters
error or invokes the engine (`droid::run`) on the built `Options`. -/
inductive HandlerOutcome where
  | reject (msg : String)
  | run (opts : Options)
deriving DecidableEq, Repr

/-- The part of the `droid` tool handler after the prompt/file match
(`src/server.rs` lines 156-317): the unsafe-bypass/autonomy exclusivity
check, working-directory and file resolution (embedded as the oracles
`cwd_resolved` / `file_resolved`, `none` meaning the filesystem lookup
failed), empty-string filtering, level validation and the final
`Options` build.  `config_args` stands for
`droid::default_additional_args()`. -/
def droid_handler_rest (args : ToolArgs) (cwd_resolved file_resolved : Option String)
    (config_args : List String) : HandlerOutcome :=
  let skip_perms := args.skip_permissions.getD false
  if skip_perms && args.auto.isSome then
    .reject "skip_permissions_unsafe cannot be combined with auto parameter"
  else
    match cwd_resolved with
    | none => .reject "Working directory does not exist or is not accessible"
    | some working_dir =>
      match args.file, file_resolved with
      | some _, none => .reject "File does not exist or is not accessible"
      | _, _ =>
        let file_path : Option String :=
          match args.file with
          | some _ => file_resolved
          | none => none
        let session_id := args.session_id.filter (fun s => !s.isEmpty)
        let auto := args.auto.filter (fun s => !s.isEmpty)
        let model := args.model.filter (fun s => !s.isEmpty)
        let enabled_tools := args.enabled_tools.filter (fun s => !s.isEmpty)
        let disabled_tools := args.disabled_tools.filter (fun s => !s.isEmpty)
        let reasoning_effort := args.reasoning_effort.filter (fun s => !s.isEmpty)
        let spec_model := args.spec_model.filter (fun s => !s.isEmpty)
        let output_format := args.output_format.filter (fun s => !s.isEmpty)
        if (match auto with
            | some level => !(level == "low" || level == "medium" || level == "high")
            | none => false) then
          .reject "Invalid auto level"
        else if (match reasoning_effort with
            | some level => !(level == "low" || level == "medium" || level == "high")
            | none => false) then
          .reject "Invalid reasoning_effort"
        else if (match output_format with
            | some format => !(format == "stream-json" || format == "stream-jsonrpc")
            | none => false) then
          .reject "Invalid output_format"
        else
          .run
            { prompt := args.prompt
              file := file_path
              working_dir := working_dir
              session_id := session_id
              auto := auto
              model := model
              enabled_tools := enabled_tools
              disabled_tools := disabled_tools
              additional_args := config_args
              timeout_secs := args.timeout_secs
              reasoning_effort := reasoning_effort
              use_spec := args.use_spec.getD false
              spec_model := spec_model
              skip_permissions := skip_perms
              output_format := output_format }

/-- The `droid` tool handler (`src/server.rs` lines 129-317) up to the
point where the engine is invoked, starting with the prompt/file
mutual-exclusivity match of lines 133-154. -/
def droid_handler (args : ToolArgs) (cwd_resolved file_resolved : Option String)
    (config_args : List String) : HandlerOutcome :=
  match args.prompt, args.file with
  | none, none => .reject "Either PROMPT or file parameter is required"
  | some p, none =>
    if p.trim.isEmpty then .reject "PROMPT must be a non-empty, non-whitespace string"
    else droid_handler_rest args cwd_resolved file_resolved config_args
  | some _, some _ => .reject "PROMPT and file are mutually exclusive, provide only one"
  | none, some _ => droid_handler_rest args cwd_resolved file_resolved config_args

/-! Spec-side definitions, written from the words of the specification
and compared with the code-derived definitions above. -/

/-- `t` occurs verbatim inside `s`. -/
def containsSub (s t : String) : Prop := ∃ pre post, s = pre ++ t ++ post

/-- The visible-text size policy as the spec words it: append fitting
fragments (newline-separated when both sides are non-empty), and at the
first fragment whose append would exceed the cap, append a single
truncation marker, set the flag, and ignore everything after it. -/
def visSpecPolicy (buf : String) : List String → String × Bool
  | [] => (buf, false)
  | t :: ts =>
    if buf.utf8ByteSize + t.utf8ByteSize > MAX_AGENT_MESSAGES_SIZE then
      (buf ++ TRUNCATION_MARKER, true)
    else visSpecPolicy (visAppend buf t) ts

/-- The archive entries actually kept by the running-total policy: an
event is kept exactly when its serialized size still fits the total of
the previously kept events. -/
def archiveKept (sz : Nat) : List Event → List Event
  | [] => []
  | e :: evs =>
    if sz + e.size ≤ MAX_ALL_MESSAGES_SIZE then e :: archiveKept (sz + e.size) evs
    else archiveKept sz evs

/-- The final running total of the kept archive entries. -/
def archiveKeptSize (sz : Nat) : List Event → Nat
  | [] => sz
  | e :: evs =>
    if sz + e.size ≤ MAX_ALL_MESSAGES_SIZE then archiveKeptSize (sz + e.size) evs
    else archiveKeptSize sz evs

/-- Whether the running-total policy drops at least one event. -/
def archiveDropsSome (sz : Nat) : List Event → Bool
  | [] => false
  | e :: evs =>
    if sz + e.size ≤ MAX_ALL_MESSAGES_SIZE then archiveDropsSome (sz + e.size) evs
    else true

/-- Concatenation of a list of strings. -/
def concatAll : List String → String
  | [] => ""
  | s :: ss => s ++ concatAll ss

/-- The stderr lines actually kept by the 100 KB budget: a line is kept
exactly when it still fits on top of the previously kept lines. -/
def stderrKept (sz : Nat) : List String → List String
  | [] => []
  | l :: ls =>
    if sz + l.utf8ByteSize ≤ MAX_STDERR_SIZE then l :: stderrKept (sz + l.utf8ByteSize) ls
    else stderrKept sz ls

/-- The message of the last `error`-typed event of the stream that
carries a `message` field. -/
def lastErrMsg : List Event → Option String
  | [] => none
  | e :: evs =>
    match lastErrMsg evs with
    | some m => some m
    | none => if e.type = some "error" then e.message else none

/-- The first non-empty `session_id` carried by an event of the stream. -/
def firstSid : List Event → Option String
  | [] => none
  | e :: evs =>
    match e.session_id with
    | some sid => if !sid.isEmpty then some sid else firstSid evs
    | none => firstSid evs

/-- Whether the stream carries an `error`-typed event. -/
def hasErrorEvent (evs : List Event) : Bool :=
  evs.any (fun e => e.type == some "error")

/-- An over-approximation of the bytes the fragments `ts` can add to the
visible-text buffer: their sizes plus one separator byte each. -/
def visBudget (ts : List String) : Nat :=
  (ts.map String.utf8ByteSize).sum + ts.length

/-- The string made of `n` copies of the character `c`. -/
def repChar (n : Nat) (c : Char) : String := String.mk (List.replicate n c)

/-! Concrete fixtures used to evaluate the model on specific inputs. -/

/-- A `finalText` one byte above the 10 MB visible-text cap. -/
def bigText : String := repChar 10485761 'a'

/-- A stderr line one byte above the 100 KB diagnostic cap. -/
def bigLine : String := repChar 100001 'a'

/-- A `completion` event with a non-empty `session_id` and an over-cap
`finalText`. -/
def bigCompletionEvent : Event :=
  { session_id := some "s", type := some "completion", message := none,
    finalText := some bigText, role := none, text := none, size := 40 }

/-- An event whose serialized size alone exceeds the 50 MB archive cap. -/
def bigArchiveEvent : Event :=
  { session_id := none, type := none, message := none,
    finalText := none, role := none, text := none, size := 52428801 }

/-- A small unrecognized event. -/
def smallEvent : Event :=
  { session_id := none, type := none, message := none,
    finalText := none, role := none, text := none, size := 10 }

/-- An event carrying only a session id. -/
def sidEvent : Event :=
  { session_id := some "s", type := none, message := none,
    finalText := none, role := none, text := none, size := 20 }

/-- A small `completion` event. -/
def doneEvent : Event :=
  { session_id := none, type := some "completion", message := none,
    finalText := some "done", role := none, text := none, size := 10 }

/-- A first `error` event with a message. -/
def errEvent1 : Event :=
  { session_id := none, type := some "error", message := some "first failure",
    finalText := none, role := none, text := none, size := 30 }

/-- A second `error` event with a different message. -/
def errEvent2 : Event :=
  { session_id := none, type := some "error", message := some "second failure",
    finalText := none, role := none, text := none, size := 30 }

/-- An `error` event in a stream that never announces a session id. -/
def errNoSidEvent : Event :=
  { session_id := none, type := some "error", message := some "boom",
    finalText := none, role := none, text := none, size := 25 }

/-- A request with no autonomy level, no unsafe bypass, no model. -/
def optsNoAuto : Options :=
  { prompt := some "task", file := none, working_dir := "/w", session_id := none,
    auto := none, model := none, enabled_tools := none, disabled_tools := none,
    additional_args := [], timeout_secs := none, reasoning_effort := none,
    use_spec := false, spec_model := none, skip_permissions := false,
    output_format := none }

/-- A well-formed config document with every key absent. -/
def rawEmpty : RawServerConfig :=
  { additional_args := none, timeout_secs := none, default_auto := none,
    max_timeout_secs := none, allow_high_autonomy := none }

/-- A request supplying both an instruction and a file reference. -/
def argsBoth : ToolArgs :=
  { prompt := some "do it", file := some "plan.md", auto := none, session_id := none,
    cwd := none, model := none, enabled_tools := none, disabled_tools := none,
    timeout_secs := none, reasoning_effort := none, use_spec := none,
    spec_model := none, skip_permissions := none, output_format := none }

/-- A request supplying both the unsafe bypass and an autonomy level. -/
def argsUnsafeAuto : ToolArgs :=
  { prompt := some "do it", file := none, auto := some "low", session_id := none,
    cwd := none, model := none, enabled_tools := none, disabled_tools := none,
    timeout_secs := none, reasoning_effort := none, use_spec := none,
    spec_model := none, skip_permissions := some true, output_format := none }

/-! Helper lemmas: UTF-8 sizes and string appends. -/

theorem utf8_go_nil : String.utf8ByteSize.go [] = 0 := rfl

theorem utf8_go_cons (c : Char) (cs : List Char) :
    String.utf8ByteSize.go (c :: cs) = String.utf8ByteSize.go cs + c.utf8Size := rfl

theorem utf8_go_append (l1 l2 : List Char) :
    String.utf8ByteSize.go (l1 ++ l2) =
      String.utf8ByteSize.go l1 + String.utf8ByteSize.go l2 := by
  induction l1 with
  | nil => rw [List.nil_append, utf8_go_nil, Nat.zero_add]
  | cons c cs ih =>
    rw [List.cons_append, utf8_go_cons, utf8_go_cons, ih]
    omega

theorem utf8_append (s t : String) :
    (s ++ t).utf8ByteSize = s.utf8ByteSize + t.utf8ByteSize := by
  cases s with
  | mk l1 =>
    cases t with
    | mk l2 => exact utf8_go_append l1 l2

theorem utf8_go_replicate (n : Nat) (c : Char) :
    String.utf8ByteSize.go (List.replicate n c) = n * c.utf8Size := by
  induction n with
  | zero => simp [String.utf8ByteSize.go]
  | succ m ih =>
    simp only [List.replicate_succ, String.utf8ByteSize.go, ih]
    ring

theorem utf8_repChar (n : Nat) (c : Char) :
    (repChar n c).utf8ByteSize = n * c.utf8Size :=
  utf8_go_replicate n c

theorem length_repChar (n : Nat) (c : Char) : (repChar n c).length = n := by
  simp [repChar, String.length]

theorem utf8_go_pos {l : List Char} (h : l ≠ []) : 0 < String.utf8ByteSize.go l := by
  cases l with
  | nil => exact absurd rfl h
  | cons c cs =>
    have := Char.utf8Size_pos c
    simp only [String.utf8ByteSize.go]
    omega

theorem utf8_pos_of_isEmpty_false {s : String} (h : s.isEmpty = false) :
    0 < s.utf8ByteSize := by
  have hne : s ≠ "" := by
    intro hs
    rw [hs] at h
    exact absurd h (by decide)
  cases s with
  | mk l =>
    apply utf8_go_pos
    intro hl
    exact hne (String.ext hl)

theorem isEmpty_false_of_utf8_pos {s : String} (h : 0 < s.utf8ByteSize) :
    s.isEmpty = false := by
  by_contra hb
  have : s.isEmpty = true := by
    cases hi : s.isEmpty
    · exact absurd hi hb
    · rfl
  rw [String.isEmpty_iff] at this
  subst this
  exact absurd h (by decide)

theorem containsSub_isEmpty_false {s t : String} (h : containsSub s t)
    (ht : t.isEmpty = false) : s.isEmpty = false := by
  obtain ⟨pre, post, rfl⟩ := h
  apply isEmpty_false_of_utf8_pos
  have hpos := utf8_pos_of_isEmpty_false ht
  rw [utf8_append, utf8_append]
  omega

/-! Helper lemmas: the visible-text size policy. -/

theorem visStep_truncated (buf t : String) : visStep (buf, true) t = (buf, true) := by
  simp only [visStep]
  split <;> rfl

theorem visStep_fits (buf t : String)
    (h : buf.utf8ByteSize + t.utf8ByteSize ≤ MAX_AGENT_MESSAGES_SIZE) :
    visStep (buf, false) t = (visAppend buf t, false) := by
  have hn : ¬ buf.utf8ByteSize + t.utf8ByteSize > MAX_AGENT_MESSAGES_SIZE := by omega
  simp [visStep, hn]

theorem visStep_overflow (buf t : String)
    (h : buf.utf8ByteSize + t.utf8ByteSize > MAX_AGENT_MESSAGES_SIZE) :
    visStep (buf, false) t = (buf ++ TRUNCATION_MARKER, true) := by
  simp [visStep, h]

theorem visFold_truncated (ts : List String) (buf : String) :
    ts.foldl visStep (buf, true) = (buf, true) := by
  induction ts with
  | nil => rfl
  | cons t ts ih => rw [List.foldl_cons, visStep_truncated, ih]

theorem visFold_eq_visSpecPolicy (ts : List String) (buf : String) :
    ts.foldl visStep (buf, false) = visSpecPolicy buf ts := by
  induction ts generalizing buf with
  | nil => rfl
  | cons t ts ih =>
    by_cases h : buf.utf8ByteSize + t.utf8ByteSize > MAX_AGENT_MESSAGES_SIZE
    · rw [List.foldl_cons, visStep_overflow buf t h, visFold_truncated]
      simp [visSpecPolicy, h]
    · rw [List.foldl_cons, visStep_fits buf t (by omega), ih]
      simp [visSpecPolicy, h]

theorem utf8_visAppend_le (buf t : String) :
    (visAppend buf t).utf8ByteSize ≤ buf.utf8ByteSize + 1 + t.utf8ByteSize := by
  unfold visAppend
  split
  · rw [utf8_append, utf8_append]
    have : ("\n" : String).utf8ByteSize = 1 := rfl
    omega
  · rw [utf8_append]
    omega

theorem visSpecPolicy_fits (ts : List String) (buf : String)
    (h : buf.utf8ByteSize + visBudget ts ≤ MAX_AGENT_MESSAGES_SIZE) :
    visSpecPolicy buf ts = (ts.foldl visAppend buf, false) := by
  induction ts generalizing buf with
  | nil => rfl
  | cons t ts ih =>
    have hb : visBudget (t :: ts) = t.utf8ByteSize + visBudget ts + 1 := by
      simp [visBudget]
      omega
    have h1 : ¬ buf.utf8ByteSize + t.utf8ByteSize > MAX_AGENT_MESSAGES_SIZE := by
      rw [hb] at h
      omega
    have h2 : (visAppend buf t).utf8ByteSize + visBudget ts ≤ MAX_AGENT_MESSAGES_SIZE := by
      have := utf8_visAppend_le buf t
      rw [hb] at h
      omega
    rw [List.foldl_cons]
    simp only [visSpecPolicy, h1, if_neg h1]
    exact ih (visAppend buf t) h2

theorem visAppend_eq_append (buf t : String) : ∃ pre, visAppend buf t = pre ++ t := by
  unfold visAppend
  split
  · exact ⟨buf ++ "\n", by rw [String.append_assoc]⟩
  · exact ⟨buf, rfl⟩

theorem visFold_append_prefix (ts : List String) (buf : String) :
    ∃ post, ts.foldl visAppend buf = buf ++ post := by
  induction ts generalizing buf with
  | nil => exact ⟨"", (String.append_empty buf).symm⟩
  | cons t ts ih =>
    obtain ⟨post, hp⟩ := ih (visAppend buf t)
    rw [List.foldl_cons, hp]
    unfold visAppend
    split
    · exact ⟨"\n" ++ (t ++ post), by simp [String.append_assoc]⟩
    · exact ⟨t ++ post, String.append_assoc buf t post⟩

theorem visFold_contains (ts : List String) (buf t : String) (h : t ∈ ts) :
    containsSub (ts.foldl visAppend buf) t := by
  induction ts generalizing buf with
  | nil => cases h
  | cons u ts ih =>
    rw [List.foldl_cons]
    rcases List.mem_cons.mp h with rfl | hmem
    · obtain ⟨pre, hx⟩ := visAppend_eq_append buf t
      obtain ⟨post, hp⟩ := visFold_append_prefix ts (visAppend buf t)
      exact ⟨pre, post, by rw [hp, hx]⟩
    · exact ih (visAppend buf u) hmem

/-! Helper lemmas: the effect of one event on each state component. -/

@[simp] theorem sessionStep_success (st : DState) (e : Event) :
    (sessionStep st e).success = st.success := by
  unfold sessionStep
  cases e.session_id <;> simp only [] <;> split <;> rfl

@[simp] theorem sessionStep_error (st : DState) (e : Event) :
    (sessionStep st e).error = st.error := by
  unfold sessionStep
  cases e.session_id <;> simp only [] <;> split <;> rfl

@[simp] theorem sessionStep_agent (st : DState) (e : Event) :
    (sessionStep st e).agent_messages = st.agent_messages := by
  unfold sessionStep
  cases e.session_id <;> simp only [] <;> split <;> rfl

@[simp] theorem sessionStep_agent_trunc (st : DState) (e : Event) :
    (sessionStep st e).agent_messages_truncated = st.agent_messages_truncated := by
  unfold sessionStep
  cases e.session_id <;> simp only [] <;> split <;> rfl

@[simp] theorem sessionStep_all (st : DState) (e : Event) :
    (sessionStep st e).all_messages = st.all_messages := by
  unfold sessionStep
  cases e.session_id <;> simp only [] <;> split <;> rfl

@[simp] theorem sessionStep_all_size (st : DState) (e : Event) :
    (sessionStep st e).all_messages_size = st.all_messages_size := by
  unfold sessionStep
  cases e.session_id <;> simp only [] <;> split <;> rfl

@[simp] theorem sessionStep_all_trunc (st : DState) (e : Event) :
    (sessionStep st e).all_messages_truncated = st.all_messages_truncated := by
  unfold sessionStep
  cases e.session_id <;> simp only [] <;> split <;> rfl

theorem sessionStep_session (st : DState) (e : Event) :
    (sessionStep st e).session_id =
      match e.session_id with
      | some sid => if !sid.isEmpty && st.session_id.isEmpty then sid else st.session_id
      | none => st.session_id := by
  unfold sessionStep
  cases e.session_id <;> simp only [] <;> split <;> rfl

@[simp] theorem pushVisText_success (st : DState) (t : String) :
    (pushVisText st t).success = st.success := rfl

@[simp] theorem pushVisText_session (st : DState) (t : String) :
    (pushVisText st t).session_id = st.session_id := rfl

@[simp] theorem pushVisText_error (st : DState) (t : String) :
    (pushVisText st t).error = st.error := rfl

@[simp] theorem pushVisText_all (st : DState) (t : String) :
    (pushVisText st t).all_messages = st.all_messages := rfl

@[simp] theorem pushVisText_all_size (st : DState) (t : String) :
    (pushVisText st t).all_messages_size = st.all_messages_size := rfl

@[simp] theorem pushVisText_all_trunc (st : DState) (t : String) :
    (pushVisText st t).all_messages_truncated = st.all_messages_truncated := rfl

theorem pushVisText_agent_pair (st : DState) (t : String) :
    ((pushVisText st t).agent_messages, (pushVisText st t).agent_messages_truncated) =
      visStep (st.agent_messages, st.agent_messages_truncated) t := rfl

@[simp] theorem errorBranch_session (st : DState) (e : Event) :
    (errorBranch st e).session_id = st.session_id := by
  unfold errorBranch
  cases e.message <;> rfl

@[simp] theorem errorBranch_agent (st : DState) (e : Event) :
    (errorBranch st e).agent_messages = st.agent_messages := by
  unfold errorBranch
  cases e.message <;> rfl

@[simp] theorem errorBranch_agent_trunc (st : DState) (e : Event) :
    (errorBranch st e).agent_messages_truncated = st.agent_messages_truncated := by
  unfold errorBranch
  cases e.message <;> rfl

@[simp] theorem errorBranch_all (st : DState) (e : Event) :
    (errorBranch st e).all_messages = st.all_messages := by
  unfold errorBranch
  cases e.message <;> rfl

@[simp] theorem errorBranch_all_size (st : DState) (e : Event) :
    (errorBranch st e).all_messages_size = st.all_messages_size := by
  unfold errorBranch
  cases e.message <;> rfl

@[simp] theorem errorBranch_all_trunc (st : DState) (e : Event) :
    (errorBranch st e).all_messages_truncated = st.all_messages_truncated := by
  unfold errorBranch
  cases e.message <;> rfl

theorem errorBranch_success (st : DState) (e : Event) :
    (errorBranch st e).success = false := by
  unfold errorBranch
  cases e.message <;> rfl

theorem errorBranch_error (st : DState) (e : Event) :
    (errorBranch st e).error =
      match e.message with
      | some msg => some ("droid error: " ++ msg)
      | none => st.error := by
  unfold errorBranch
  cases e.message <;> rfl

@[simp] theorem completionBranch_success (st : DState) (e : Event) :
    (completionBranch st e).success = st.success := by
  unfold completionBranch
  cases e.finalText <;> rfl

@[simp] theorem completionBranch_session (st : DState) (e : Event) :
    (completionBranch st e).session_id = st.session_id := by
  unfold completionBranch
  cases e.finalText <;> rfl

@[simp] theorem completionBranch_error (st : DState) (e : Event) :
    (completionBranch st e).error = st.error := by
  unfold completionBranch
  cases e.finalText <;> rfl

@[simp] theorem completionBranch_all (st : DState) (e : Event) :
    (completionBranch st e).all_messages = st.all_messages := by
  unfold completionBranch
  cases e.finalText <;> rfl

@[simp] theorem completionBranch_all_size (st : DState) (e : Event) :
    (completionBranch st e).all_messages_size = st.all_messages_size := by
  unfold completionBranch
  cases e.finalText <;> rfl

@[simp] theorem completionBranch_all_trunc (st : DState) (e : Event) :
    (completionBranch st e).all_messages_truncated = st.all_messages_truncated := by
  unfold completionBranch
  cases e.finalText <;> rfl

theorem completionBranch_agent_pair (st : DState) (e : Event) :
    ((completionBranch st e).agent_messages, (completionBranch st e).agent_messages_truncated) =
      match e.finalText with
      | some t => visStep (st.agent_messages, st.agent_messages_truncated) t
      | none => (st.agent_messages, st.agent_messages_truncated) := by
  unfold completionBranch
  cases e.finalText <;> rfl

@[simp] theorem assistantBranch_success (st : DState) (e : Event) :
    (assistantBranch st e).success = st.success := by
  unfold assistantBranch
  cases e.text <;> rfl

@[simp] theorem assistantBranch_session (st : DState) (e : Event) :
    (assistantBranch st e).session_id = st.session_id := by
  unfold assistantBranch
  cases e.text <;> rfl

@[simp] theorem assistantBranch_error (st : DState) (e : Event) :
    (assistantBranch st e).error = st.error := by
  unfold assistantBranch
  cases e.text <;> rfl

@[simp] theorem assistantBranch_all (st : DState) (e : Event) :
    (assistantBranch st e).all_messages = st.all_messages := by
  unfold assistantBranch
  cases e.text <;> rfl

@[simp] theorem assistantBranch_all_size (st : DState) (e : Event) :
    (assistantBranch st e).all_messages_size = st.all_messages_size := by
  unfold assistantBranch
  cases e.text <;> rfl

@[simp] theorem assistantBranch_all_trunc (st : DState) (e : Event) :
    (assistantBranch st e).all_messages_truncated = st.all_messages_truncated := by
  unfold assistantBranch
  cases e.text <;> rfl

theorem assistantBranch_agent_pair (st : DState) (e : Event) :
    ((assistantBranch st e).agent_messages, (assistantBranch st e).agent_messages_truncated) =
      match e.text with
      | some t => visStep (st.agent_messages, st.agent_messages_truncated) t
      | none => (st.agent_messages, st.agent_messages_truncated) := by
  unfold assistantBranch
  cases e.text <;> rfl

@[simp] theorem messageBranch_success (st : DState) (e : Event) :
    (messageBranch st e).success = st.success := by
  unfold messageBranch
  cases e.role with
  | none => rfl
  | some role => by_cases h : role = "assistant" <;> simp [h]

@[simp] theorem messageBranch_session (st : DState) (e : Event) :
    (messageBranch st e).session_id = st.session_id := by
  unfold messageBranch
  cases e.role with
  | none => rfl
  | some role => by_cases h : role = "assistant" <;> simp [h]

@[simp] theorem messageBranch_error (st : DState) (e : Event) :
    (messageBranch st e).error = st.error := by
  unfold messageBranch
  cases e.role with
  | none => rfl
  | some role => by_cases h : role = "assistant" <;> simp [h]

@[simp] theorem messageBranch_all (st : DState) (e : Event) :
    (messageBranch st e).all_messages = st.all_messages := by
  unfold messageBranch
  cases e.role with
  | none => rfl
  | some role => by_cases h : role = "assistant" <;> simp [h]

@[simp] theorem messageBranch_all_size (st : DState) (e : Event) :
    (messageBranch st e).all_messages_size = st.all_messages_size := by
  unfold messageBranch
  cases e.role with
  | none => rfl
  | some role => by_cases h : role = "assistant" <;> simp [h]

@[simp] theorem messageBranch_all_trunc (st : DState) (e : Event) :
    (messageBranch st e).all_messages_truncated = st.all_messages_truncated := by
  unfold messageBranch
  cases e.role with
  | none => rfl
  | some role => by_cases h : role = "assistant" <;> simp [h]

theorem messageBranch_agent_pair (st : DState) (e : Event) :
    ((messageBranch st e).agent_messages, (messageBranch st e).agent_messages_truncated) =
      match e.msgText with
      | some t => visStep (st.agent_messages, st.agent_messages_truncated) t
      | none => (st.agent_messages, st.agent_messages_truncated) := by
  unfold messageBranch Event.msgText
  cases e.role with
  | none => rfl
  | some role =>
    by_cases h : role = "assistant"
    · simp only [h, if_pos]
      exact assistantBranch_agent_pair st e
    · simp [h]

theorem typeStep_session (st : DState) (e : Event) :
    (typeStep st e).session_id = st.session_id := by
  unfold typeStep
  cases e.type with
  | none => rfl
  | some lt =>
    by_cases h1 : lt = "error" <;> by_cases h2 : lt = "completion" <;>
      by_cases h3 : lt = "message" <;> simp [h1, h2, h3]

theorem typeStep_all (st : DState) (e : Event) :
    (typeStep st e).all_messages = st.all_messages := by
  unfold typeStep
  cases e.type with
  | none => rfl
  | some lt =>
    by_cases h1 : lt = "error" <;> by_cases h2 : lt = "completion" <;>
      by_cases h3 : lt = "message" <;> simp [h1, h2, h3]

theorem typeStep_all_size (st : DState) (e : Event) :
    (typeStep st e).all_messages_size = st.all_messages_size := by
  unfold typeStep
  cases e.type with
  | none => rfl
  | some lt =>
    by_cases h1 : lt = "error" <;> by_cases h2 : lt = "completion" <;>
      by_cases h3 : lt = "message" <;> simp [h1, h2, h3]

theorem typeStep_all_trunc (st : DState) (e : Event) :
    (typeStep st e).all_messages_truncated = st.all_messages_truncated := by
  unfold typeStep
  cases e.type with
  | none => rfl
  | some lt =>
    by_cases h1 : lt = "error" <;> by_cases h2 : lt = "completion" <;>
      by_cases h3 : lt = "message" <;> simp [h1, h2, h3]

theorem typeStep_success (st : DState) (e : Event) :
    (typeStep st e).success = if e.type = some "error" then false else st.success := by
  unfold typeStep
  cases e.type with
  | none => simp
  | some lt =>
    by_cases h1 : lt = "error" <;> by_cases h2 : lt = "completion" <;>
      by_cases h3 : lt = "message" <;> simp [h1, h2, h3, errorBranch_success]

theorem typeStep_error (st : DState) (e : Event) :
    (typeStep st e).error =
      if e.type = some "error" then
        match e.message with
        | some msg => some ("droid error: " ++ msg)
        | none => st.error
      else st.error := by
  unfold typeStep
  cases e.type with
  | none => simp
  | some lt =>
    by_cases h1 : lt = "error" <;> by_cases h2 : lt = "completion" <;>
      by_cases h3 : lt = "message" <;> simp [h1, h2, h3, errorBranch_error]

theorem typeStep_agent_pair (st : DState) (e : Event) :
    ((typeStep st e).agent_messages, (typeStep st e).agent_messages_truncated) =
      match e.visText with
      | some t => visStep (st.agent_messages, st.agent_messages_truncated) t
      | none => (st.agent_messages, st.agent_messages_truncated) := by
  unfold typeStep Event.visText
  cases e.type with
  | none => rfl
  | some lt =>
    by_cases h2 : lt = "completion"
    · subst h2
      simp only [if_pos rfl]
      have hnm : ¬ ("completion" : String) = "message" := by decide
      have hne : ¬ ("completion" : String) = "error" := by decide
      simp only [if_neg hnm, if_neg hne]
      exact completionBranch_agent_pair st e
    · by_cases h3 : lt = "message"
      · subst h3
        have hne : ¬ ("message" : String) = "error" := by decide
        simp only [if_neg h2, if_neg hne, if_pos rfl]
        exact messageBranch_agent_pair st e
      · by_cases h1 : lt = "error" <;> simp [h1, h2, h3]

theorem archiveStep_success (st : DState) (e : Event) :
    (archiveStep st e).success = st.success := by
  unfold archiveStep
  split <;> (try split) <;> rfl

theorem archiveStep_session (st : DState) (e : Event) :
    (archiveStep st e).session_id = st.session_id := by
  unfold archiveStep
  split <;> (try split) <;> rfl

theorem archiveStep_error (st : DState) (e : Event) :
    (archiveStep st e).error = st.error := by
  unfold archiveStep
  split <;> (try split) <;> rfl

theorem archiveStep_agent (st : DState) (e : Event) :
    (archiveStep st e).agent_messages = st.agent_messages := by
  unfold archiveStep
  split <;> (try split) <;> rfl

theorem archiveStep_agent_trunc (st : DState) (e : Event) :
    (archiveStep st e).agent_messages_truncated = st.agent_messages_truncated := by
  unfold archiveStep
  split <;> (try split) <;> rfl

theorem archiveStep_all (st : DState) (e : Event) :
    (archiveStep st e).all_messages =
      if st.all_messages_size + e.size ≤ MAX_ALL_MESSAGES_SIZE then st.all_messages ++ [e]
      else st.all_messages := by
  unfold archiveStep
  split
  · rfl
  · split <;> rfl

theorem archiveStep_all_size (st : DState) (e : Event) :
    (archiveStep st e).all_messages_size =
      if st.all_messages_size + e.size ≤ MAX_ALL_MESSAGES_SIZE then
        st.all_messages_size + e.size
      else st.all_messages_size := by
  unfold archiveStep
  split
  · rfl
  · split <;> rfl

theorem archiveStep_all_trunc (st : DState) (e : Event) :
    (archiveStep st e).all_messages_truncated =
      if st.all_messages_size + e.size ≤ MAX_ALL_MESSAGES_SIZE then
        st.all_messages_truncated
      else true := by
  unfold archiveStep
  split
  · rfl
  · split
    · rfl
    · rename_i hf
      have ht : st.all_messages_truncated = true := by
        revert hf
        cases st.all_messages_truncated <;> simp
      rw [ht]

/-! Helper lemmas: the effect of one event through `procEvent`. -/

theorem procEvent_success (st : DState) (e : Event) :
    (procEvent st e).success = if e.type = some "error" then false else st.success := by
  unfold procEvent
  rw [archiveStep_success, typeStep_success, sessionStep_success]

theorem procEvent_error (st : DState) (e : Event) :
    (procEvent st e).error =
      if e.type = some "error" then
        match e.message with
        | some msg => some ("droid error: " ++ msg)
        | none => st.error
      else st.error := by
  unfold procEvent
  rw [archiveStep_error, typeStep_error, sessionStep_error]

theorem procEvent_session (st : DState) (e : Event) :
    (procEvent st e).session_id =
      match e.session_id with
      | some sid => if !sid.isEmpty && st.session_id.isEmpty then sid else st.session_id
      | none => st.session_id := by
  unfold procEvent
  rw [archiveStep_session, typeStep_session, sessionStep_session]

theorem procEvent_agent_pair (st : DState) (e : Event) :
    ((procEvent st e).agent_messages, (procEvent st e).agent_messages_truncated) =
      match e.visText with
      | some t => visStep (st.agent_messages, st.agent_messages_truncated) t
      | none => (st.agent_messages, st.agent_messages_truncated) := by
  unfold procEvent
  rw [archiveStep_agent, archiveStep_agent_trunc]
  rw [typeStep_agent_pair]
  rw [sessionStep_agent, sessionStep_agent_trunc]

theorem procEvent_all (st : DState) (e : Event) :
    (procEvent st e).all_messages =
      if st.all_messages_size + e.size ≤ MAX_ALL_MESSAGES_SIZE then st.all_messages ++ [e]
      else st.all_messages := by
  unfold procEvent
  rw [archiveStep_all, typeStep_all, typeStep_all_size, sessionStep_all, sessionStep_all_size]

theorem procEvent_all_size (st : DState) (e : Event) :
    (procEvent st e).all_messages_size =
      if st.all_messages_size + e.size ≤ MAX_ALL_MESSAGES_SIZE then
        st.all_messages_size + e.size
      else st.all_messages_size := by
  unfold procEvent
  rw [archiveStep_all_size, typeStep_all_size, sessionStep_all_size]

theorem procEvent_all_trunc (st : DState) (e : Event) :
    (procEvent st e).all_messages_truncated =
      if st.all_messages_size + e.size ≤ MAX_ALL_MESSAGES_SIZE then
        st.all_messages_truncated
      else true := by
  unfold procEvent
  rw [archiveStep_all_trunc, typeStep_all_trunc, typeStep_all_size, sessionStep_all_trunc,
    sessionStep_all_size]

theorem drainFrom_cons (st : DState) (e : Event) (evs : List Event) :
    drainFrom st (e :: evs) = drainFrom (procEvent st e) evs := rfl

theorem drainFrom_nil (st : DState) : drainFrom st [] = st := rfl

/-! Helper lemmas: the effect of the whole drain. -/

theorem drain_success (evs : List Event) (st : DState) :
    (drainFrom st evs).success = (st.success && !hasErrorEvent evs) := by
  induction evs generalizing st with
  | nil => simp [drainFrom_nil, hasErrorEvent]
  | cons e evs ih =>
    rw [drainFrom_cons, ih, procEvent_success]
    have hcons : hasErrorEvent (e :: evs) =
        ((e.type == some "error") || hasErrorEvent evs) := by
      simp [hasErrorEvent, List.any_cons]
    by_cases h : e.type = some "error"
    · have hb : (e.type == some "error") = true := by simp [h]
      rw [if_pos h, hcons, hb]
      simp
    · have hb : (e.type == some "error") = false := by simp [h]
      rw [if_neg h, hcons, hb]
      simp

theorem drain_error (evs : List Event) (st : DState) :
    (drainFrom st evs).error =
      match lastErrMsg evs with
      | some m => some ("droid error: " ++ m)
      | none => st.error := by
  induction evs generalizing st with
  | nil => rfl
  | cons e evs ih =>
    rw [drainFrom_cons, ih]
    have hcons : lastErrMsg (e :: evs) =
        match lastErrMsg evs with
        | some m => some m
        | none => if e.type = some "error" then e.message else none := rfl
    cases hl : lastErrMsg evs with
    | some m => rw [hcons, hl]
    | none =>
      rw [hcons, hl, procEvent_error]
      by_cases h : e.type = some "error"
      · rw [if_pos h, if_pos h]
      · rw [if_neg h, if_neg h]

theorem drain_session (evs : List Event) (st : DState) :
    (drainFrom st evs).session_id =
      if st.session_id.isEmpty then (firstSid evs).getD st.session_id
      else st.session_id := by
  induction evs generalizing st with
  | nil =>
    rw [drainFrom_nil]
    cases h : st.session_id.isEmpty <;> simp [firstSid, h]
  | cons e evs ih =>
    rw [drainFrom_cons, ih, procEvent_session]
    cases hs : st.session_id.isEmpty with
    | false =>
      cases he : e.session_id with
      | none => simp [hs, firstSid, he]
      | some sid => simp [hs, firstSid, he]
    | true =>
      cases he : e.session_id with
      | none => simp [hs, firstSid, he]
      | some sid =>
        cases hsid : sid.isEmpty with
        | true => simp [hs, hsid, firstSid, he]
        | false => simp [hs, hsid, firstSid, he]

theorem drain_agent_pair (evs : List Event) (st : DState) :
    ((drainFrom st evs).agent_messages, (drainFrom st evs).agent_messages_truncated) =
      (visTexts evs).foldl visStep (st.agent_messages, st.agent_messages_truncated) := by
  induction evs generalizing st with
  | nil => rfl
  | cons e evs ih =>
    have hvt : visTexts (e :: evs) =
        match e.visText with
        | some t => t :: visTexts evs
        | none => visTexts evs := by
      rw [visTexts, List.filterMap_cons]
      cases e.visText <;> rfl
    rw [drainFrom_cons, ih]
    have hstep := procEvent_agent_pair st e
    cases hv : e.visText with
    | none =>
      rw [hv] at hstep
      rw [hvt, hv, hstep]
    | some t =>
      rw [hv] at hstep
      rw [hvt, hv, List.foldl_cons, hstep]

theorem drain_archive (evs : List Event) (st : DState) :
    (drainFrom st evs).all_messages = st.all_messages ++ archiveKept st.all_messages_size evs ∧
    (drainFrom st evs).all_messages_size = archiveKeptSize st.all_messages_size evs ∧
    (drainFrom st evs).all_messages_truncated =
      (st.all_messages_truncated || archiveDropsSome st.all_messages_size evs) := by
  induction evs generalizing st with
  | nil => simp [drainFrom_nil, archiveKept, archiveKeptSize, archiveDropsSome]
  | cons e evs ih =>
    obtain ⟨ih1, ih2, ih3⟩ := ih (procEvent st e)
    rw [drainFrom_cons]
    by_cases h : st.all_messages_size + e.size ≤ MAX_ALL_MESSAGES_SIZE
    · refine ⟨?_, ?_, ?_⟩
      · rw [ih1, procEvent_all, procEvent_all_size, if_pos h, if_pos h]
        rw [archiveKept, if_pos h, List.append_assoc]
        rfl
      · rw [ih2, procEvent_all_size, if_pos h]
        rw [archiveKeptSize, if_pos h]
      · rw [ih3, procEvent_all_trunc, procEvent_all_size, if_pos h, if_pos h]
        rw [archiveDropsSome, if_pos h]
    · refine ⟨?_, ?_, ?_⟩
      · rw [ih1, procEvent_all, procEvent_all_size, if_neg h, if_neg h]
        rw [archiveKept, if_neg h]
      · rw [ih2, procEvent_all_size, if_neg h]
        rw [archiveKeptSize, if_neg h]
      · rw [ih3, procEvent_all_trunc, procEvent_all_size, if_neg h, if_neg h]
        rw [archiveDropsSome, if_neg h]
        simp

theorem stderrFold_eq (lines : List String) (out : String) :
    lines.foldl stderrStep out = out ++ concatAll (stderrKept out.utf8ByteSize lines) := by
  induction lines generalizing out with
  | nil => rw [List.foldl_nil, stderrKept, concatAll, String.append_empty]
  | cons l ls ih =>
    rw [List.foldl_cons, stderrStep, stderrKept]
    by_cases h : out.utf8ByteSize + l.utf8ByteSize ≤ MAX_STDERR_SIZE
    · rw [if_pos h, if_pos h, ih, concatAll, utf8_append, String.append_assoc]
    · rw [if_neg h, if_neg h, ih]

theorem stderrFold_le (lines : List String) (out : String)
    (h : out.utf8ByteSize ≤ MAX_STDERR_SIZE) :
    (lines.foldl stderrStep out).utf8ByteSize ≤ MAX_STDERR_SIZE := by
  induction lines generalizing out with
  | nil => exact h
  | cons l ls ih =>
    rw [List.foldl_cons, stderrStep]
    by_cases hc : out.utf8ByteSize + l.utf8ByteSize ≤ MAX_STDERR_SIZE
    · rw [if_pos hc]
      exact ih (out ++ l) (by rw [utf8_append]; omega)
    · rw [if_neg hc]
      exact ih out h

/-! Claim C5. -/

/-- C5: when the timeout deadline elapses first, `run` returns `Ok` with
a result whose success flag is false, whose session id and agent text
are empty, whose error states the elapsed timeout in seconds, and whose
warnings hold the warnings gathered so far (project-context-file and
model-resolution warnings) concatenated ahead of the timeout notice. -/
theorem C5_timeout_result (timeout_secs : Nat) (dw mw md : Option String) :
    ∃ r, runTimedOut timeout_secs dw mw md = Except.ok r ∧
      r.success = false ∧ r.session_id = "" ∧ r.agent_messages = "" ∧
      r.error = some ("Timeout after " ++ toString timeout_secs ++ " seconds") ∧
      ∃ pre, r.warnings =
          some (pre ++ ("Droid execution timed out after " ++ toString timeout_secs
            ++ " seconds")) ∧
        (∀ d, dw = some d → ∃ rest, pre = d ++ rest) ∧
        (∀ m, mw = some m → ∃ a b, pre = a ++ (m ++ b)) := by
  refine ⟨timeoutResult timeout_secs dw mw md, rfl, rfl, rfl, rfl, rfl, ?_⟩
  cases dw with
  | none =>
    cases mw with
    | none =>
      refine ⟨"", ?_, ?_, ?_⟩
      · rw [String.empty_append]
        rfl
      · intro d hd
        exact absurd hd (by simp)
      · intro m hm
        exact absurd hm (by simp)
    | some m =>
      refine ⟨m ++ "\n", ?_, ?_, ?_⟩
      · rfl
      · intro d hd
        exact absurd hd (by simp)
      · intro m2 hm
        refine ⟨"", "\n", ?_⟩
        obtain rfl : m = m2 := by injection hm
        rw [String.empty_append]
  | some d =>
    cases mw with
    | none =>
      refine ⟨d ++ "\n", ?_, ?_, ?_⟩
      · rfl
      · intro d2 hd
        obtain rfl : d = d2 := by injection hd
        exact ⟨"\n", rfl⟩
      · intro m hm
        exact absurd hm (by simp)
    | some m =>
      refine ⟨d ++ "\n" ++ m ++ "\n", ?_, ?_, ?_⟩
      · rfl
      · intro d2 hd
        obtain rfl : d = d2 := by injection hd
        exact ⟨"\n" ++ m ++ "\n", by simp [String.append_assoc]⟩
      · intro m2 hm
        obtain rfl : m = m2 := by injection hm
        exact ⟨d ++ "\n", "\n", by simp [String.append_assoc]⟩

/-- C5 witness: the timeout result at a concrete input. -/
theorem C5_witness :
    (timeoutResult 1 (some "W") (some "M") none).success = false ∧
    (timeoutResult 1 (some "W") (some "M") none).error =
      some "Timeout after 1 seconds" := by
  obtain ⟨r, h1, h2, h3, h4, h5, h6⟩ := C5_timeout_result 1 (some "W") (some "M") none
  have hr : timeoutResult 1 (some "W") (some "M") none = r := by
    have h1b : Except.ok (ε := String) (timeoutResult 1 (some "W") (some "M") none) =
        Except.ok r := h1
    injection h1b
  rw [hr]
  refine ⟨h2, ?_⟩
  rw [h5]
  rfl

/-! Claim C10. -/

/-- C10: the allow-high-autonomy setting is true when the config file is
absent, unreadable or malformed, but false when a well-formed config
omits the `allow_high_autonomy` key; in that omitted-key case a request
for high autonomy is rejected before any process is spawned. -/
theorem C10_allow_high_default (raw : RawServerConfig) (opts : Options)
    (hraw : raw.allow_high_autonomy = none) (hopts : opts.auto = some "high") :
    (load_server_config ConfigFileState.absent).allow_high_autonomy = true ∧
    (load_server_config ConfigFileState.unreadable).allow_high_autonomy = true ∧
    (load_server_config ConfigFileState.malformed).allow_high_autonomy = true ∧
    (load_server_config (ConfigFileState.wellFormed raw)).allow_high_autonomy = false ∧
    run_prelaunch (load_server_config (ConfigFileState.wellFormed raw)) opts =
      Except.error "High autonomy level is disabled in configuration. Set allow_high_autonomy=true to enable." := by
  have hallow : (load_server_config (ConfigFileState.wellFormed raw)).allow_high_autonomy
      = false := by
    simp [load_server_config, parseServerConfig, hraw]
  refine ⟨rfl, rfl, rfl, hallow, ?_⟩
  have hnone : opts.auto.isNone = false := by rw [hopts]; rfl
  simp [run_prelaunch, hnone, hopts, hallow]

/-- C10 witness: a concrete empty-but-well-formed config file rejects a
high-autonomy request. -/
theorem C10_witness :
    run_prelaunch (load_server_config (ConfigFileState.wellFormed rawEmpty))
      { optsNoAuto with auto := some "high" } =
      Except.error "High autonomy level is disabled in configuration. Set allow_high_autonomy=true to enable." :=
  (C10_allow_high_default rawEmpty { optsNoAuto with auto := some "high" } rfl rfl).2.2.2.2

/-! Claim C9. -/

/-- C9 counterexample: with a well-formed config file that sets no
`default_auto` (and, having omitted `allow_high_autonomy`, forbids high
autonomy), a request with no autonomy level and no unsafe bypass is
rejected before the spawn, so `run` does not launch the subprocess with
`--auto high` as the claim states. -/
theorem C9_counterexample :
    optsNoAuto.auto = none ∧ optsNoAuto.skip_permissions = false ∧
    rawEmpty.default_auto = none ∧
    run_prelaunch (load_server_config (ConfigFileState.wellFormed rawEmpty)) optsNoAuto =
      Except.error "High autonomy level is disabled in configuration. Set allow_high_autonomy=true to enable." :=
  ⟨rfl, rfl, rfl, rfl⟩

/-- C9 (amended): when the caller omits the autonomy level, the unsafe
bypass is off and the config sets no non-blank `default_auto`, then
provided the config allows high autonomy (which holds by default when
the file is absent, unreadable or malformed), `run` proceeds past the
pre-launch checks and the spawned command line carries `--auto high`. -/
theorem C9_default_auto_high (cfg : ServerConfig) (opts : Options) (prompt : String)
    (h1 : opts.auto = none) (h2 : opts.skip_permissions = false)
    (h3 : ∀ d, cfg.default_auto = some d → d.trim.isEmpty = true)
    (h4 : cfg.allow_high_autonomy = true) :
    run_prelaunch cfg opts = Except.ok { opts with auto := some "high" } ∧
    ["--auto", "high"] <:+: buildArgs { opts with auto := some "high" } prompt := by
  have hga : get_default_auto cfg = some "high" := by
    cases hd : cfg.default_auto with
    | none => rw [get_default_auto, hd]
    | some d =>
      have ht := h3 d hd
      rw [get_default_auto, hd]
      simp [ht]
  constructor
  · have hnone : opts.auto.isNone = true := by rw [h1]; rfl
    simp [run_prelaunch, hnone, hga, h4]
  · refine ⟨["exec", "-o", opts.output_format.getD "stream-json", "--cwd", opts.working_dir],
      (match opts.reasoning_effort with
        | some reasoning => ["-r", reasoning]
        | none => [])
      ++ (if opts.use_spec then
            ["--use-spec"]
            ++ (match opts.spec_model with
                | some spec_model => ["--spec-model", spec_model]
                | none => [])
          else [])
      ++ (match opts.model with
          | some model => ["--model", model]
          | none => [])
      ++ (match opts.enabled_tools with
          | some enabled => ["--enabled-tools", enabled]
          | none => [])
      ++ (match opts.disabled_tools with
          | some disabled => ["--disabled-tools", disabled]
          | none => [])
      ++ (match opts.session_id with
          | some session_id => ["--session-id", session_id]
          | none => [])
      ++ opts.additional_args
      ++ (match opts.file with
          | some file => ["--file", file]
          | none => [prompt]), ?_⟩
    rw [buildArgs]
    simp [h2, List.append_assoc]

/-- C9 witness: with the config file absent, the default invocation is
accepted and carries `--auto high`. -/
theorem C9_witness :
    run_prelaunch (load_server_config ConfigFileState.absent) optsNoAuto =
      Except.ok { optsNoAuto with auto := some "high" } ∧
    ["--auto", "high"] <:+:
      buildArgs { optsNoAuto with auto := some "high" } "task" :=
  C9_default_auto_high (load_server_config ConfigFileState.absent) optsNoAuto "task"
    rfl rfl (fun d hd => by exact absurd hd (by simp [load_server_config])) rfl

/-! Claim C8. -/

theorem droid_handler_rest_run_inv (args : ToolArgs) (cwdRes fileRes : Option String)
    (cfgArgs : List String) (opts : Options)
    (h : droid_handler_rest args cwdRes fileRes cfgArgs = HandlerOutcome.run opts) :
    opts.prompt = args.prompt ∧
    (args.file = none → opts.file = none) ∧
    opts.skip_permissions = args.skip_permissions.getD false ∧
    (args.skip_permissions.getD false = true → opts.auto = none) := by
  rw [droid_handler_rest.eq_def] at h
  by_cases hg : (args.skip_permissions.getD false && args.auto.isSome) = true
  · rw [if_pos hg] at h
    cases h
  · rw [if_neg hg] at h
    have hauto : args.skip_permissions.getD false = true → args.auto = none := by
      intro hsk
      rw [hsk] at hg
      cases ha : args.auto with
      | none => rfl
      | some a =>
        rw [ha] at hg
        exact absurd rfl hg
    cases cwdRes with
    | none => cases h
    | some wd =>
      cases hf : args.file with
      | some f =>
        cases fileRes with
        | none =>
          rw [hf] at h
          cases h
        | some fr =>
          rw [hf] at h
          simp only [] at h
          split at h
          · cases h
          · split at h
            · cases h
            · split at h
              · cases h
              · cases h
                refine ⟨rfl, ?_, rfl, ?_⟩
                · intro hfn
                  cases hfn
                · intro hsk
                  rw [hauto hsk]
                  rfl
      | none =>
        rw [hf] at h
        simp only [] at h
        split at h
        · cases h
        · split at h
          · cases h
          · split at h
            · cases h
            · cases h
              refine ⟨rfl, ?_, rfl, ?_⟩
              · intro _
                rfl
              · intro hsk
                rw [hauto hsk]
                rfl

/-- C8: a request supplying both an instruction and a file reference, or
both the unsafe permission bypass and an autonomy level, is rejected
with an invalid-parameters error before any process is launched; and
whenever the engine does run, the built options never carry both members
of either pair. -/
theorem C8_mutual_exclusivity (args : ToolArgs) (cwdRes fileRes : Option String)
    (cfgArgs : List String) :
    (args.prompt.isSome = true → args.file.isSome = true →
      droid_handler args cwdRes fileRes cfgArgs =
        HandlerOutcome.reject "PROMPT and file are mutually exclusive, provide only one") ∧
    (args.skip_permissions = some true → args.auto.isSome = true →
      ∃ msg, droid_handler args cwdRes fileRes cfgArgs = HandlerOutcome.reject msg) ∧
    (∀ opts, droid_handler args cwdRes fileRes cfgArgs = HandlerOutcome.run opts →
      (opts.prompt.isSome && opts.file.isSome) = false ∧
      (opts.skip_permissions && opts.auto.isSome) = false) := by
  refine ⟨?_, ?_, ?_⟩
  · intro hp hf
    cases hP : args.prompt with
    | none => rw [hP] at hp; cases hp
    | some p =>
      cases hF : args.file with
      | none => rw [hF] at hf; cases hf
      | some f => simp [droid_handler, hP, hF]
  · intro hs ha
    have hrest : ∃ msg, droid_handler_rest args cwdRes fileRes cfgArgs =
        HandlerOutcome.reject msg := by
      refine ⟨"skip_permissions_unsafe cannot be combined with auto parameter", ?_⟩
      rw [droid_handler_rest.eq_def]
      have hcond : (args.skip_permissions.getD false && args.auto.isSome) = true := by
        rw [hs, ha]
        rfl
      rw [if_pos hcond]
    cases hP : args.prompt with
    | none =>
      cases hF : args.file with
      | none => exact ⟨"Either PROMPT or file parameter is required", by simp [droid_handler, hP, hF]⟩
      | some f =>
        obtain ⟨msg, hmsg⟩ := hrest
        exact ⟨msg, by simp [droid_handler, hP, hF, hmsg]⟩
    | some p =>
      cases hF : args.file with
      | none =>
        by_cases ht : p.trim.isEmpty = true
        · exact ⟨"PROMPT must be a non-empty, non-whitespace string",
            by simp [droid_handler, hP, hF, ht]⟩
        · obtain ⟨msg, hmsg⟩ := hrest
          refine ⟨msg, ?_⟩
          simp only [droid_handler, hP, hF]
          rw [if_neg ht]
          exact hmsg
      | some f =>
        exact ⟨"PROMPT and file are mutually exclusive, provide only one",
          by simp [droid_handler, hP, hF]⟩
  · intro opts hrun
    have hfrom : droid_handler_rest args cwdRes fileRes cfgArgs = HandlerOutcome.run opts ∧
        (args.prompt = none ∨ args.file = none) := by
      cases hP : args.prompt with
      | none =>
        cases hF : args.file with
        | none => simp [droid_handler, hP, hF] at hrun
        | some f =>
          simp only [droid_handler, hP, hF] at hrun
          exact ⟨hrun, Or.inl rfl⟩
      | some p =>
        cases hF : args.file with
        | none =>
          simp only [droid_handler, hP, hF] at hrun
          by_cases ht : p.trim.isEmpty = true
          · rw [if_pos ht] at hrun
            cases hrun
          · rw [if_neg ht] at hrun
            exact ⟨hrun, Or.inr rfl⟩
        | some f =>
          simp only [droid_handler, hP, hF] at hrun
          cases hrun
    obtain ⟨hrest, hpf⟩ := hfrom
    obtain ⟨e1, e2, e3, e4⟩ := droid_handler_rest_run_inv args cwdRes fileRes cfgArgs opts hrest
    constructor
    · rcases hpf with hp | hf
      · rw [e1, hp]
        rfl
      · rw [e2 hf]
        cases (opts.prompt).isSome <;> rfl
    · cases hsk : args.skip_permissions.getD false with
      | false =>
        rw [e3, hsk]
        rfl
      | true =>
        rw [e4 hsk]
        cases hop : opts.skip_permissions <;> rfl

/-- C8 witness: concrete requests with both members of a pair are
rejected. -/
theorem C8_witness :
    droid_handler argsBoth none none [] =
      HandlerOutcome.reject "PROMPT and file are mutually exclusive, provide only one" ∧
    ∃ msg, droid_handler argsUnsafeAuto none none [] = HandlerOutcome.reject msg :=
  ⟨(C8_mutual_exclusivity argsBoth none none []).1 rfl rfl,
    (C8_mutual_exclusivity argsUnsafeAuto none none []).2.1 rfl rfl⟩

/-! Helper lemmas: the verdict resolution and stream observations. -/

theorem hasError_of_lastErrMsg (evs : List Event) (m : String)
    (h : lastErrMsg evs = some m) : hasErrorEvent evs = true := by
  induction evs generalizing m with
  | nil => cases h
  | cons e evs ih =>
    have hany : hasErrorEvent (e :: evs) =
        ((e.type == some "error") || hasErrorEvent evs) := by
      simp [hasErrorEvent, List.any_cons]
    cases hl : lastErrMsg evs with
    | some m2 =>
      rw [hany, ih m2 hl, Bool.or_true]
    | none =>
      have hcons : lastErrMsg (e :: evs) =
          if e.type = some "error" then e.message else none := by
        simp [lastErrMsg, hl]
      rw [hcons] at h
      by_cases ht : e.type = some "error"
      · have hb : (e.type == some "error") = true := by simp [ht]
        rw [hany, hb, Bool.true_or]
      · rw [if_neg ht] at h
        cases h

theorem firstSid_isEmpty_false (evs : List Event) (s : String)
    (h : firstSid evs = some s) : s.isEmpty = false := by
  induction evs generalizing s with
  | nil => cases h
  | cons e evs ih =>
    cases he : e.session_id with
    | none =>
      have hc : firstSid (e :: evs) = firstSid evs := by simp [firstSid, he]
      rw [hc] at h
      exact ih s h
    | some sid =>
      cases hsid : sid.isEmpty with
      | true =>
        have hc : firstSid (e :: evs) = firstSid evs := by simp [firstSid, he, hsid]
        rw [hc] at h
        exact ih s h
      | false =>
        have hc : firstSid (e :: evs) = some sid := by simp [firstSid, he, hsid]
        rw [hc] at h
        obtain rfl : sid = s := by injection h
        exact hsid

theorem finalize_keeps_error (st : DState) (eo : Bool) (c : Option Int) (s x : String)
    (hsucc : st.success = false) (herr : st.error = some x)
    (hsid : st.session_id.isEmpty = false) :
    (finalize st eo c s).success = false ∧ (finalize st eo c s).error = st.error := by
  unfold finalize
  cases eo with
  | true => simp [hsid, hsucc]
  | false => simp [hsid, hsucc, herr]

theorem finalize_no_session (st : DState) (eo : Bool) (c : Option Int) (s : String)
    (h : st.session_id.isEmpty = true) :
    (finalize st eo c s).success = false ∧
    (finalize st eo c s).error = some "No session_id received from droid" := by
  unfold finalize
  cases eo with
  | true => simp [h]
  | false =>
    cases he : st.error with
    | none => simp [h, he]
    | some x => simp [h, he]

theorem finalize_id (st : DState) (c : Option Int) (s : String)
    (h1 : st.session_id.isEmpty = false) (h2 : st.agent_messages.isEmpty = false) :
    finalize st true c s = st := by
  unfold finalize
  simp [h1, h2]

/-! Claim C2. -/

/-- C2 counterexample: after a single event whose serialized size
exceeds the 50 MB cap, the truncation flag is set, yet a later small
event is still appended, so the archive is not the prefix of events
that fit (which would be empty here). -/
theorem C2_counterexample :
    (drainFrom (initState none none) [bigArchiveEvent, smallEvent]).all_messages_truncated
      = true ∧
    (drainFrom (initState none none) [bigArchiveEvent, smallEvent]).all_messages
      = [smallEvent] ∧
    [smallEvent] ≠ ([] : List Event) := by
  refine ⟨rfl, rfl, by decide⟩

/-- C2 (amended): the truncation flag is set as soon as one event fails
the running-total fit check, but subsequent events are dropped only
individually: an event that still fits the running total of the kept
events is appended even after the flag is set, and dropped events do not
advance the running total — the archive is the greedily-fitting
subsequence, not necessarily a prefix. -/
theorem C2_archive_greedy (evs : List Event) (w mi : Option String) :
    (drainFrom (initState w mi) evs).all_messages = archiveKept 0 evs ∧
    (drainFrom (initState w mi) evs).all_messages_size = archiveKeptSize 0 evs ∧
    (drainFrom (initState w mi) evs).all_messages_truncated = archiveDropsSome 0 evs := by
  obtain ⟨h1, h2, h3⟩ := drain_archive evs (initState w mi)
  refine ⟨?_, ?_, ?_⟩
  · rw [h1]
    simp [initState]
  · exact h2
  · rw [h3]
    simp [initState]

/-! Claim C3. -/

/-- C3 counterexample: with two `error` events carrying messages, the
final error string comes from the second event's message — the second
`error` event overwrites the message set by the first, so error-message
setting is not first-wins. -/
theorem C3_counterexample :
    (run_internal [sidEvent, errEvent1, errEvent2] true none "" none none).error =
      some "droid error: second failure" ∧
    some "droid error: second failure" ≠ some "droid error: first failure" ∧
    (run_internal [sidEvent, errEvent1, errEvent2] true none "" none none).success
      = false := by
  refine ⟨rfl, by decide, rfl⟩

/-- C3 (amended): the failure marking is monotonic (any `error` event
makes the final success false), but the error message is last-wins: for
a stream whose last `error` event carrying a message has message `m`,
and which announces a non-empty session id, the final error string is
the agent-error prefix applied to `m`; later `error` events replace the
message of earlier ones. -/
theorem C3_last_error_wins (evs : List Event) (exit_ok : Bool) (code : Option Int)
    (serr : String) (w mi : Option String) (m s : String)
    (hm : lastErrMsg evs = some m) (hs : firstSid evs = some s) :
    (run_internal evs exit_ok code serr w mi).success = false ∧
    (run_internal evs exit_ok code serr w mi).error =
      some ("droid error: " ++ m) := by
  have herr : (drainFrom (initState w mi) evs).error = some ("droid error: " ++ m) := by
    rw [drain_error, hm]
  have hsucc : (drainFrom (initState w mi) evs).success = false := by
    rw [drain_success, hasError_of_lastErrMsg evs m hm]
    rfl
  have hsid : (drainFrom (initState w mi) evs).session_id = s := by
    rw [drain_session]
    simp [initState, hs, show ("" : String).isEmpty = true from rfl]
  have hkeep := finalize_keeps_error (drainFrom (initState w mi) evs) exit_ok code serr
    ("droid error: " ++ m) hsucc herr
    (by rw [hsid]; exact firstSid_isEmpty_false evs s hs)
  exact ⟨hkeep.1, hkeep.2.trans herr⟩

/-- C3 witness: the last-wins behaviour at a concrete two-error stream. -/
theorem C3_witness :
    (run_internal [sidEvent, errEvent1, errEvent2] false none "" none none).success
      = false ∧
    (run_internal [sidEvent, errEvent1, errEvent2] false none "" none none).error =
      some "droid error: second failure" :=
  C3_last_error_wins [sidEvent, errEvent1, errEvent2] false none "" none none
    "second failure" "s" rfl rfl

/-! Claim C4. -/

/-- C4 counterexample: an in-stream `error` event sets the error message
during the drain, yet when the session id is still empty the verdict
resolution replaces it with the no-session-id message — the existing
error message is not left unchanged. -/
theorem C4_counterexample :
    (drainFrom (initState none none) [errNoSidEvent]).error = some "droid error: boom" ∧
    (run_internal [errNoSidEvent] true none "" none none).error =
      some "No session_id received from droid" ∧
    some "No session_id received from droid" ≠ some "droid error: boom" := by
  refine ⟨rfl, rfl, by decide⟩

/-- C4 (amended): when the session id is still empty after the
exit-status step, the result is marked failed and the error message is
unconditionally set to the no-session-id message, replacing any error
message set by the exit-status step or by an in-stream `error` event. -/
theorem C4_no_session_overwrites (evs : List Event) (exit_ok : Bool) (code : Option Int)
    (serr : String) (w mi : Option String) (h : firstSid evs = none) :
    (run_internal evs exit_ok code serr w mi).success = false ∧
    (run_internal evs exit_ok code serr w mi).error =
      some "No session_id received from droid" := by
  have hsid : (drainFrom (initState w mi) evs).session_id = "" := by
    rw [drain_session]
    simp [initState, h]
  exact finalize_no_session (drainFrom (initState w mi) evs) exit_ok code serr
    (by rw [hsid]; rfl)

/-- C4 witness: the no-session-id message replaces the stream error at a
concrete input. -/
theorem C4_witness :
    (run_internal [errNoSidEvent] false (some 1) "" none none).success = false ∧
    (run_internal [errNoSidEvent] false (some 1) "" none none).error =
      some "No session_id received from droid" :=
  C4_no_session_overwrites [errNoSidEvent] false (some 1) "" none none rfl

/-! Claim C6. -/

/-- C6: the agent-visible text buffer of the drain is governed by the
`visStep` policy over the stream's text fragments; that policy equals
the spec-side recursion `visSpecPolicy` (append fitting fragments, a
single truncation marker at the first overflow, nothing after it); once
the flag is set every append is a no-op; and a within-budget append uses
`visAppend`, which separates with a newline exactly when both the buffer
and the fragment are non-empty. -/
theorem C6_visible_text_invariant (evs : List Event) (w mi : Option String)
    (ts : List String) (buf t : String) :
    ((drainFrom (initState w mi) evs).agent_messages,
        (drainFrom (initState w mi) evs).agent_messages_truncated) =
      visRun (visTexts evs) ∧
    visRun ts = visSpecPolicy "" ts ∧
    visStep (buf, true) t = (buf, true) ∧
    (buf.utf8ByteSize + t.utf8ByteSize ≤ MAX_AGENT_MESSAGES_SIZE →
      visStep (buf, false) t = (visAppend buf t, false)) ∧
    (buf.utf8ByteSize + t.utf8ByteSize > MAX_AGENT_MESSAGES_SIZE →
      visStep (buf, false) t = (buf ++ TRUNCATION_MARKER, true)) := by
  refine ⟨?_, ?_, visStep_truncated buf t, visStep_fits buf t, visStep_overflow buf t⟩
  · exact drain_agent_pair evs (initState w mi)
  · exact (visFold_eq_visSpecPolicy ts "").symm.symm

/-- C6 witness: the policy at concrete inputs. -/
theorem C6_witness :
    visRun ["hi"] = visSpecPolicy "" ["hi"] ∧
    visStep ("", true) "y" = ("", true) ∧
    visStep ("", false) "y" = (visAppend "" "y", false) := by
  obtain ⟨h1, h2, h3, h4, h5⟩ := C6_visible_text_invariant [] none none ["hi"] "" "y"
  exact ⟨h2, h3, h4 (by decide)⟩

/-! Claim C7. -/

/-- C7 counterexample: a first stderr line above the 100 KB cap is
dropped, yet the following small line is still appended — the buffer is
not the concatenation of the initial prefix of lines that fit (which
would be empty here). -/
theorem C7_counterexample :
    stderrDrain [bigLine, "a"] = "a" ∧ ("a" : String) ≠ "" := by
  have hbig : bigLine.utf8ByteSize = 100001 := by
    unfold bigLine
    rw [utf8_repChar, show ('a').utf8Size = 1 from rfl, Nat.mul_one]
  constructor
  · have h1 : stderrStep "" bigLine = "" := by
      unfold stderrStep
      rw [if_neg (by rw [hbig, show ("" : String).utf8ByteSize = 0 from rfl]; decide)]
    have h2 : stderrStep "" "a" = "a" := by
      unfold stderrStep
      rw [if_pos (by decide)]
      exact String.empty_append "a"
    show List.foldl stderrStep "" [bigLine, "a"] = "a"
    rw [List.foldl_cons, h1, List.foldl_cons, h2, List.foldl_nil]
  · decide

/-- C7 (amended): a stderr line is dropped exactly when appending it
would push the buffer past the 100 KB cap, but later lines that still
fit are appended (there is no cut-off flag): the buffer is the
concatenation of the greedily-fitting subsequence of lines, and it never
exceeds the cap. -/
theorem C7_stderr_greedy (lines : List String) :
    stderrDrain lines = concatAll (stderrKept 0 lines) ∧
    (stderrDrain lines).utf8ByteSize ≤ MAX_STDERR_SIZE := by
  constructor
  · have h := stderrFold_eq lines ""
    rw [show ("" : String).utf8ByteSize = 0 from rfl] at h
    unfold stderrDrain
    rw [h, String.empty_append]
  · exact stderrFold_le lines "" (by decide)

/-! Claim C1. -/

/-- C1 counterexample: a stream with one `completion` event carrying a
non-empty session id and a `finalText` one byte above the 10 MB cap, no
`error` events, and a zero exit status yields success=true and the right
session id, but the agent text is just the truncation marker and does
not contain the finalText, contrary to the claim. -/
theorem C1_counterexample :
    (run_internal [bigCompletionEvent] true none "" none none).success = true ∧
    (run_internal [bigCompletionEvent] true none "" none none).session_id = "s" ∧
    (run_internal [bigCompletionEvent] true none "" none none).agent_messages =
      TRUNCATION_MARKER ∧
    ¬ containsSub
        (run_internal [bigCompletionEvent] true none "" none none).agent_messages
        bigText := by
  have hbig : bigText.utf8ByteSize = 10485761 := by
    unfold bigText
    rw [utf8_repChar, show ('a').utf8Size = 1 from rfl, Nat.mul_one]
  have hpair := drain_agent_pair [bigCompletionEvent] (initState none none)
  have hvt : visTexts [bigCompletionEvent] = [bigText] := rfl
  have hinit : (((initState none none).agent_messages : String),
      (initState none none).agent_messages_truncated) = (("" : String), false) := rfl
  rw [hvt, hinit] at hpair
  have hstep : visStep ("", false) bigText = ("" ++ TRUNCATION_MARKER, true) :=
    visStep_overflow "" bigText
      (by rw [hbig, show ("" : String).utf8ByteSize = 0 from rfl]; decide)
  have hfold : [bigText].foldl visStep (("" : String), false) =
      ("" ++ TRUNCATION_MARKER, true) := by
    rw [List.foldl_cons, hstep, List.foldl_nil]
  rw [hfold, String.empty_append, Prod.mk.injEq] at hpair
  have hagentm :
      (drainFrom (initState none none) [bigCompletionEvent]).agent_messages =
        TRUNCATION_MARKER := hpair.1
  have hsid : (drainFrom (initState none none) [bigCompletionEvent]).session_id = "s" := by
    rw [drain_session]
    simp [initState, show firstSid [bigCompletionEvent] = some "s" from rfl,
      show ("" : String).isEmpty = true from rfl]
  have hsucc : (drainFrom (initState none none) [bigCompletionEvent]).success = true := by
    rw [drain_success]
    rfl
  have hfin : finalize (drainFrom (initState none none) [bigCompletionEvent]) true none ""
      = drainFrom (initState none none) [bigCompletionEvent] :=
    finalize_id _ none "" (by rw [hsid]; rfl) (by rw [hagentm]; rfl)
  have hru : run_internal [bigCompletionEvent] true none "" none none =
      drainFrom (initState none none) [bigCompletionEvent] := hfin
  refine ⟨?_, ?_, ?_, ?_⟩
  · rw [hru]
    exact hsucc
  · rw [hru]
    exact hsid
  · rw [hru]
    exact hagentm
  · rw [hru, hagentm]
    intro hcon
    obtain ⟨pre, post, heq⟩ := hcon
    have hlen := congrArg String.utf8ByteSize heq
    rw [utf8_append, utf8_append, hbig] at hlen
    have hmark : TRUNCATION_MARKER.utf8ByteSize ≤ 100 := by decide
    omega

/-- C1 (amended): for every stream that announces a non-empty session id
and contains a `completion` event with non-empty `finalText`, with no
`error`-typed events and a zero exit status, and whose agent-visible
fragments cumulatively fit within the 10 MB cap (so no truncation
occurs), `run_internal` returns success=true, the first non-empty
session id observed, and agent text containing that `finalText`. -/
theorem C1_success_path (evs : List Event) (code : Option Int) (serr : String)
    (w mi : Option String) (s ft : String) (e : Event)
    (hs : firstSid evs = some s)
    (he : e ∈ evs) (het : e.type = some "completion") (hft : e.finalText = some ft)
    (hftne : ft.isEmpty = false)
    (hnoerr : hasErrorEvent evs = false)
    (hbudget : visBudget (visTexts evs) ≤ MAX_AGENT_MESSAGES_SIZE) :
    (run_internal evs true code serr w mi).success = true ∧
    (run_internal evs true code serr w mi).session_id = s ∧
    containsSub (run_internal evs true code serr w mi).agent_messages ft := by
  have hpair := drain_agent_pair evs (initState w mi)
  have hfits : visSpecPolicy "" (visTexts evs) =
      ((visTexts evs).foldl visAppend "", false) :=
    visSpecPolicy_fits (visTexts evs) ""
      (by rw [show ("" : String).utf8ByteSize = 0 from rfl]; omega)
  have hrun : (visTexts evs).foldl visStep (("" : String), false) =
      ((visTexts evs).foldl visAppend "", false) := by
    rw [visFold_eq_visSpecPolicy, hfits]
  have hp2 := hpair.trans hrun
  have hagent : (drainFrom (initState w mi) evs).agent_messages =
      (visTexts evs).foldl visAppend "" := congrArg Prod.fst hp2
  have hmem : ft ∈ visTexts evs := by
    rw [visTexts]
    refine List.mem_filterMap.mpr ⟨e, he, ?_⟩
    simp [Event.visText, het, hft]
  have hcontains : containsSub ((visTexts evs).foldl visAppend "") ft :=
    visFold_contains (visTexts evs) "" ft hmem
  have hagne : (drainFrom (initState w mi) evs).agent_messages.isEmpty = false := by
    rw [hagent]
    exact containsSub_isEmpty_false hcontains hftne
  have hsid : (drainFrom (initState w mi) evs).session_id = s := by
    rw [drain_session]
    simp [initState, hs, show ("" : String).isEmpty = true from rfl]
  have hfin : finalize (drainFrom (initState w mi) evs) true code serr =
      drainFrom (initState w mi) evs :=
    finalize_id _ code serr
      (by rw [hsid]; exact firstSid_isEmpty_false evs s hs) hagne
  have hru : run_internal evs true code serr w mi = drainFrom (initState w mi) evs := hfin
  refine ⟨?_, ?_, ?_⟩
  · rw [hru, drain_success, hnoerr]
    rfl
  · rw [hru]
    exact hsid
  · rw [hru, hagent]
    exact hcontains

/-- C1 witness: the success path at a concrete small stream. -/
theorem C1_witness :
    (run_internal [sidEvent, doneEvent] true none "" none none).success = true ∧
    (run_internal [sidEvent, doneEvent] true none "" none none).session_id = "s" ∧
    containsSub
      (run_internal [sidEvent, doneEvent] true none "" none none).agent_messages
      "done" :=
  C1_success_path [sidEvent, doneEvent] none "" none none "s" "done" doneEvent
    rfl (by simp) rfl rfl rfl rfl (by decide)

end DroidMcp
